import Mathlib

/-
Shallow embedding of the mysql2pg migration tool's verification core
(src/mysql2pg/validation.py, schema_diff.py, pgloader.py, cli.py),
with theorems settling the specification's claims about it.
-/

set_option maxRecDepth 20000

namespace Mysql2pg

/-! ## Row-count reconciler (validation.py, `validate_migration`, lines 347-393)

A `TableInventory` is a Python dict from table name to row count; the
sentinel `-1` marks a table whose `COUNT(*)` query failed.  We model it as
an association list with unique keys, queried through `List.lookup`
(`counts.get(t, "-")` becomes `Option Int`, where `none` plays the role of
the `"-"` default, which in Python never compares equal to an `int`). -/

/-- Per-table status assigned by the row-count comparison loop in
`validate_migration`. -/
inductive RowStatus where
  | ok
  | missing
  | extra
  | mismatch
deriving DecidableEq, Repr

/-- The classification of one table `t`, translated from the loop body:
`m_count == p_count` (Python `==` on the `dict.get` results, with the `"-"`
default standing for absence) gives OK; otherwise `t not in pg_counts`
gives MISSING, `t not in mysql_counts` gives EXTRA, and MISMATCH remains. -/
def classify (mysqlCounts pgCounts : List (String × Int)) (t : String) : RowStatus :=
  if mysqlCounts.lookup t = pgCounts.lookup t then .ok
  else if (pgCounts.lookup t).isNone then .missing
  else if (mysqlCounts.lookup t).isNone then .extra
  else .mismatch

/-- Python `str.lower()`, character by character over the string's code
points. -/
def pyLower (s : String) : String :=
  String.mk (s.data.map Char.toLower)

/-- Lexicographic (code-point) order on strings, as `sorted` uses. -/
def strLt (a b : String) : Bool :=
  decide (a.data < b.data)

/-- Ascending insertion into a sorted list of strings. -/
def sortedInsert (s : String) : List String → List String
  | [] => [s]
  | t :: ts => if strLt t s then t :: sortedInsert s ts else s :: t :: ts

/-- `sorted(...)` over a list of strings. -/
def sortStrings : List String → List String
  | [] => []
  | s :: ss => sortedInsert s (sortStrings ss)

/-- `sorted(set(list(mysql_counts.keys()) + list(pg_counts.keys())))`. -/
def allTables (m p : List (String × Int)) : List String :=
  sortStrings ((m.map Prod.fst ++ p.map Prod.fst).dedup)

/-- The two statuses whose branches execute `all_passed = False`. -/
def hardFail : RowStatus → Bool
  | .missing => true
  | .mismatch => true
  | _ => false

/-- The row-count loop's effect on `all_passed`, starting from `True` and
setting `False` in the MISSING and MISMATCH branches. -/
def rowCountPass (m p : List (String × Int)) : Bool :=
  (allTables m p).foldl (fun acc t => if hardFail (classify m p t) then false else acc) true

/-- One row of `report["row_counts"]["tables"]`. -/
structure RowEntry where
  table : String
  mysql : Option Int
  pg : Option Int
  status : RowStatus
  passed : Bool
deriving Repr, DecidableEq

/-- The per-table entries appended inside the row-count loop. -/
def rowEntries (m p : List (String × Int)) : List RowEntry :=
  (allTables m p).map fun t =>
    { table := t
      mysql := m.lookup t
      pg := p.lookup t
      status := classify m p t
      passed := decide (classify m p t = RowStatus.ok) }

/-- Result of `get_pg_constraints` (validation.py lines 224-305). -/
structure PgConstraints where
  primary_keys : List (String × String)
  foreign_keys : List (String × String × String × String)
  indexes : List (String × String)
  sequences : List String
deriving Repr, DecidableEq

/-- The `converted_types` dict of `validate_migration` (lines 406-411). -/
def converted_types : List (String × String) :=
  [("bool", "TINYINT/BIT → boolean"),
   ("timestamp", "DATETIME → timestamp"),
   ("int8", "INT UNSIGNED → bigint"),
   ("numeric", "BIGINT UNSIGNED → numeric")]

/-- The `report` dict returned by `validate_migration`. -/
structure VerificationReport where
  row_tables : List RowEntry
  row_passed : Nat
  row_failed : Nat
  row_total : Nat
  type_conversions : List (String × String × String)
  constraints : Option PgConstraints
  all_passed : Bool
  validation_errors : List String
deriving Repr

/-- `validate_migration` (validation.py lines 308-482), embedded over the
outcomes of its four introspection calls: `get_mysql_tables`,
`discover_pg_schema`+`get_pg_tables`, `get_pg_column_types` and
`get_pg_constraints`.  An `Except.error` input is a raised `RuntimeError`
caught by the corresponding `try`/`except` block, which appends a message
to `validation_errors`; `all_passed` starts `True`, is set `False` by the
row-count loop's MISSING/MISMATCH branches and by the `else` branch taken
when either inventory is unavailable, and is never touched by the
column-type or constraint phases. -/
def validate_migration
    (mysqlRes pgRes : Except String (List (String × Int)))
    (colsRes : Except String (List (String × String × String)))
    (consRes : Except String PgConstraints) : VerificationReport :=
  let rowPhase := match mysqlRes, pgRes with
    | .ok m, .ok p => some (m, p)
    | _, _ => none
  { row_tables := match rowPhase with
      | some (m, p) => rowEntries m p
      | none => []
    row_passed := match rowPhase with
      | some (m, p) => (allTables m p).countP (fun t => !hardFail (classify m p t))
      | none => 0
    row_failed := match rowPhase with
      | some (m, p) => (allTables m p).countP (fun t => hardFail (classify m p t))
      | none => 0
    row_total := match rowPhase with
      | some (m, p) => (allTables m p).length
      | none => 0
    type_conversions := match colsRes with
      | .ok cols => cols.filterMap (fun c =>
          (converted_types.lookup c.2.2).map (fun conv => (c.1, c.2.1, conv)))
      | .error _ => []
    constraints := match consRes with
      | .ok c => some c
      | .error _ => none
    all_passed := match rowPhase with
      | some (m, p) => rowCountPass m p
      | none => false
    validation_errors :=
      (match mysqlRes with
        | .error e => ["MySQL connection failed: " ++ e]
        | .ok _ => [])
      ++ (match pgRes with
        | .error e => ["PostgreSQL connection failed: " ++ e]
        | .ok _ => [])
      ++ (match colsRes with
        | .error e => ["PostgreSQL type query failed: " ++ e]
        | .ok _ => [])
      ++ (match consRes with
        | .error e => ["PostgreSQL constraint query failed: " ++ e]
        | .ok _ => []) }

/-! ### Helper lemmas -/

theorem mem_sortedInsert (a s : String) (l : List String) :
    a ∈ sortedInsert s l ↔ a = s ∨ a ∈ l := by
  induction l with
  | nil => simp [sortedInsert]
  | cons t ts ih =>
    simp only [sortedInsert]
    split <;> simp only [List.mem_cons, ih] <;> tauto

theorem mem_sortStrings (a : String) (l : List String) :
    a ∈ sortStrings l ↔ a ∈ l := by
  induction l with
  | nil => simp [sortStrings]
  | cons s ss ih => simp [sortStrings, mem_sortedInsert, ih]

theorem lookup_isSome_iff {β : Type} (l : List (String × β)) (k : String) :
    (l.lookup k).isSome ↔ k ∈ l.map Prod.fst := by
  induction l with
  | nil => simp [List.lookup]
  | cons a t ih =>
    rcases a with ⟨k1, v1⟩
    by_cases h : k = k1
    · simp [List.lookup, h]
    · have hbeq : (k == k1) = false := by simp [h]
      simp only [List.lookup, hbeq, List.map_cons, List.mem_cons]
      rw [ih]
      simp [h]

theorem mem_allTables (m p : List (String × Int)) (t : String) :
    t ∈ allTables m p ↔ (m.lookup t).isSome ∨ (p.lookup t).isSome := by
  simp [allTables, mem_sortStrings, lookup_isSome_iff]

theorem foldl_hardFail_eq (g : String → Bool) (l : List String) (b : Bool) :
    l.foldl (fun acc t => if g t then false else acc) b = (b && l.all (fun t => !g t)) := by
  induction l generalizing b with
  | nil => simp
  | cons a t ih =>
    rw [List.foldl_cons, ih, List.all_cons]
    by_cases h : g a = true
    · simp [h]
    · simp only [Bool.not_eq_true] at h
      simp [h]

/-! ### Claims C1, C5, C2 -/

/-- C1 counterexample: the claim says a table whose count is the unavailable
sentinel (`-1`) on either side is never classified OK, and that MISMATCH
requires neither side to be unavailable.  The code classifies a table whose
count is `-1` on both sides as OK (since `-1 == -1`), and a table with a
real count on one side and the sentinel on the other as MISMATCH. -/
theorem c1_row_classification_counterexample :
    classify [("t", -1)] [("t", -1)] "t" = RowStatus.ok ∧
    classify [("u", 100)] [("u", -1)] "u" = RowStatus.mismatch := by
  decide

/-- C1 amended: for every table in the sorted union of the two inventories'
keys, the classification is OK iff a count is present on both sides and the
stored values are equal — including the case where both sides store the
unavailable sentinel; MISMATCH iff present on both sides with unequal
stored values — even when one of them is the sentinel; MISSING iff present
only in the source inventory; EXTRA iff present only in the target
inventory. -/
theorem c1_row_classification_amended (m p : List (String × Int)) (t : String)
    (ht : t ∈ allTables m p) :
    (classify m p t = RowStatus.ok ↔ ∃ v, m.lookup t = some v ∧ p.lookup t = some v) ∧
    (classify m p t = RowStatus.mismatch ↔
      ∃ a b, m.lookup t = some a ∧ p.lookup t = some b ∧ a ≠ b) ∧
    (classify m p t = RowStatus.missing ↔ (m.lookup t).isSome ∧ p.lookup t = none) ∧
    (classify m p t = RowStatus.extra ↔ m.lookup t = none ∧ (p.lookup t).isSome) := by
  have hsome := (mem_allTables m p t).mp ht
  cases hml : m.lookup t with
  | none =>
    cases hpl : p.lookup t with
    | none => rw [hml, hpl] at hsome; simp at hsome
    | some b => simp [classify, hml, hpl]
  | some a =>
    cases hpl : p.lookup t with
    | none => simp [classify, hml, hpl]
    | some b =>
      by_cases hab : a = b
      · subst hab
        simp [classify, hml, hpl]
      · simp [classify, hml, hpl, hab, eq_comm]

/-- C1 amended witness: a concrete table present on both sides with equal
counts sits in the union and is classified OK. -/
theorem c1_row_classification_amended_witness :
    ("users" ∈ allTables [("users", 10)] [("users", 10)]) ∧
    classify [("users", 10)] [("users", 10)] "users" = RowStatus.ok :=
  ⟨by decide,
   ((c1_row_classification_amended [("users", 10)] [("users", 10)] "users"
      (by decide)).1).mpr ⟨10, by decide, by decide⟩⟩

/-- C5: the reconciler's aggregate pass/fail bit is true iff zero tables in
the sorted union are classified MISSING or MISMATCH; any number of EXTRA
tables leaves it true. -/
theorem c5_row_pass_iff_no_hard_failure (m p : List (String × Int)) :
    rowCountPass m p = true ↔
      (allTables m p).countP
        (fun t => decide (classify m p t = RowStatus.missing ∨
                          classify m p t = RowStatus.mismatch)) = 0 := by
  have hpred : ∀ t, hardFail (classify m p t) =
      decide (classify m p t = RowStatus.missing ∨ classify m p t = RowStatus.mismatch) := by
    intro t
    cases classify m p t <;> rfl
  rw [rowCountPass, foldl_hardFail_eq]
  simp only [Bool.true_and, List.all_eq_true, List.countP_eq_zero]
  constructor
  · intro h t htm
    have := h t htm
    rw [hpred] at this
    simpa using this
  · intro h t htm
    have := h t htm
    rw [← hpred] at this
    simpa using this

/-- C2 counterexample: the claim says any introspection-level error in the
run's error list — including a column-type query failure or a constraint
query failure — forces `all_passed` to false.  In the code those two
failures only append to `validation_errors`; with both inventories obtained
and matching, `all_passed` stays true. -/
theorem c2_overall_verdict_counterexample :
    ((validate_migration (Except.ok [("t", 3)]) (Except.ok [("t", 3)])
        (Except.error "boom") (Except.ok ⟨[], [], [], []⟩)).all_passed = true ∧
      (validate_migration (Except.ok [("t", 3)]) (Except.ok [("t", 3)])
        (Except.error "boom") (Except.ok ⟨[], [], [], []⟩)).validation_errors ≠ []) ∧
    ((validate_migration (Except.ok [("t", 3)]) (Except.ok [("t", 3)])
        (Except.ok []) (Except.error "boom")).all_passed = true ∧
      (validate_migration (Except.ok [("t", 3)]) (Except.ok [("t", 3)])
        (Except.ok []) (Except.error "boom")).validation_errors ≠ []) := by
  decide

/-- C2 amended: `all_passed` equals the row-count reconciler's bit when both
table inventories were obtained and is false when either inventory
collection failed with a connection error; failures of the column-type
query or the constraint query are recorded in the run's error list but do
not affect `all_passed`. -/
theorem c2_overall_verdict_amended
    (mysqlRes pgRes : Except String (List (String × Int)))
    (colsRes colsRes2 : Except String (List (String × String × String)))
    (consRes consRes2 : Except String PgConstraints) :
    ((validate_migration mysqlRes pgRes colsRes consRes).all_passed =
      match mysqlRes, pgRes with
      | .ok m, .ok p => rowCountPass m p
      | _, _ => false) ∧
    ((validate_migration mysqlRes pgRes colsRes consRes).all_passed =
      (validate_migration mysqlRes pgRes colsRes2 consRes2).all_passed) ∧
    (∀ e, colsRes = .error e →
      ("PostgreSQL type query failed: " ++ e) ∈
        (validate_migration mysqlRes pgRes colsRes consRes).validation_errors) ∧
    (∀ e, consRes = .error e →
      ("PostgreSQL constraint query failed: " ++ e) ∈
        (validate_migration mysqlRes pgRes colsRes consRes).validation_errors) ∧
    (∀ e, mysqlRes = .error e →
      ("MySQL connection failed: " ++ e) ∈
        (validate_migration mysqlRes pgRes colsRes consRes).validation_errors ∧
      (validate_migration mysqlRes pgRes colsRes consRes).all_passed = false) ∧
    (∀ e, pgRes = .error e →
      ("PostgreSQL connection failed: " ++ e) ∈
        (validate_migration mysqlRes pgRes colsRes consRes).validation_errors ∧
      (validate_migration mysqlRes pgRes colsRes consRes).all_passed = false) := by
  refine ⟨?_, ?_, ?_, ?_, ?_, ?_⟩
  · cases mysqlRes <;> cases pgRes <;> rfl
  · cases mysqlRes <;> cases pgRes <;> rfl
  · intro e he
    subst he
    simp [validate_migration]
  · intro e he
    subst he
    simp [validate_migration]
  · intro e he
    subst he
    cases pgRes <;> simp [validate_migration]
  · intro e he
    subst he
    cases mysqlRes <;> simp [validate_migration]

/-- C2 amended witness: at a concrete input with a failing column-type
query, the theorem yields the recorded error message. -/
theorem c2_overall_verdict_amended_witness :
    ("PostgreSQL type query failed: boom") ∈
      (validate_migration (Except.ok [("t", 3)]) (Except.ok [("t", 3)])
        (Except.error "boom") (Except.ok ⟨[], [], [], []⟩)).validation_errors :=
  (c2_overall_verdict_amended (Except.ok [("t", 3)]) (Except.ok [("t", 3)])
      (Except.error "boom") (Except.ok [])
      (Except.ok ⟨[], [], [], []⟩) (Except.ok ⟨[], [], [], []⟩)).2.2.1 "boom" rfl

/-! ## Type-diff classifier (schema_diff.py, `schema_diff_report`, lines 61-178)

The two catalogs are turned into dicts keyed by `table.column`
(lower-cased); the loop walks the sorted union of keys and classifies each
key via `if m and p: ... elif m: ...`. -/

/-- Classification statuses used by `schema_diff_report`. -/
inductive ColStatus where
  | identical
  | converted
  | mapped
  | missing
deriving DecidableEq, Repr

/-- The `equiv_map` dict of `schema_diff_report` (lines 123-147); the value
sets become lists, queried only by membership. -/
def equiv_map : List (String × List String) :=
  [("int", ["int4", "int8", "integer"]),
   ("bigint", ["int8", "bigint", "numeric"]),
   ("smallint", ["int2", "smallint"]),
   ("tinyint", ["bool", "boolean"]),
   ("varchar", ["varchar", "text"]),
   ("char", ["bpchar", "char"]),
   ("text", ["text"]),
   ("longtext", ["text"]),
   ("mediumtext", ["text"]),
   ("datetime", ["timestamp"]),
   ("timestamp", ["timestamp", "timestamptz"]),
   ("date", ["date"]),
   ("time", ["time", "timetz"]),
   ("decimal", ["numeric"]),
   ("float", ["float4", "float8", "real"]),
   ("double", ["float8", "double precision"]),
   ("blob", ["bytea"]),
   ("longblob", ["bytea"]),
   ("mediumblob", ["bytea"]),
   ("bit", ["bool", "bit"]),
   ("enum", ["text", "varchar"]),
   ("json", ["json", "jsonb"]),
   ("boolean", ["bool"])]

/-- `f"{col['table'].lower()}.{col['column'].lower()}"`. -/
def colKey (table column : String) : String :=
  pyLower table ++ "." ++ pyLower column

/-- Python dict assignment `d[k] = v`: overwrite in place if the key exists,
else append. -/
def dictInsert {β : Type} (d : List (String × β)) (k : String) (v : β) : List (String × β) :=
  if (d.lookup k).isSome then
    d.map (fun kv => if kv.1 = k then (k, v) else kv)
  else d ++ [(k, v)]

/-- `{key(col): col for col in cols}` over `(table, column, typeString)`
triples, keeping the type string (the only field the classifier reads:
`m["type"]` on the MySQL side, `p["udt_name"]` on the PG side). -/
def buildTypeLookup (cols : List (String × String × String)) : List (String × String) :=
  cols.foldl (fun acc c => dictInsert acc (colKey c.1 c.2.1) c.2.2) []

/-- The classification of one key of the union, from the loop body of
`schema_diff_report` (lines 112-166): both sides present yields identical /
converted / mapped via the equivalence map; present only on the MySQL side
yields missing; a key absent from the MySQL lookup falls through every
branch (`if m and p: ... elif m: ...` has no `else`) and gets no status. -/
def classifyColumn (mysqlLookup pgLookup : List (String × String)) (key : String) :
    Option ColStatus :=
  match mysqlLookup.lookup key, pgLookup.lookup key with
  | some mty, some pty =>
    let mysqlBase := pyLower ((mty.splitOn "(").headD "") |>.trim
    let pgBase := (pyLower pty).trim
    if mysqlBase = pgBase then some .identical
    else if pgBase ∈ ((equiv_map.lookup mysqlBase).getD []) then some .converted
    else some .mapped
  | some _, none => some .missing
  | none, _ => none

/-- `sorted(set(list(mysql_lookup.keys()) + list(pg_lookup.keys())))`. -/
def allColKeys (mL pL : List (String × String)) : List String :=
  sortStrings ((mL.map Prod.fst ++ pL.map Prod.fst).dedup)

/-! ### Claim C3 -/

/-- C3 counterexample: the claim says classification is total on the union
of both key sets, including keys present only in the target catalog.  A
column present only in the PG catalog is in the union but receives no
classification. -/
theorem c3_type_classification_counterexample :
    "t.c" ∈ allColKeys [] (buildTypeLookup [("t", "c", "int4")]) ∧
    classifyColumn [] (buildTypeLookup [("t", "c", "int4")]) "t.c" = none := by
  decide

/-- C3 amended: type classification is total exactly on the keys present in
the source catalog's lookup: a key of the union receives a classification
(exactly one, since the classifier returns a single status) iff it is
present on the MySQL side; keys present only in the target catalog receive
none. -/
theorem c3_type_classification_amended (mL pL : List (String × String)) (key : String)
    (hk : key ∈ allColKeys mL pL) :
    ((classifyColumn mL pL key).isSome ↔ (mL.lookup key).isSome) ∧
    (mL.lookup key = none → classifyColumn mL pL key = none) := by
  cases hml : mL.lookup key with
  | none => simp [classifyColumn, hml]
  | some mty =>
    cases hpl : pL.lookup key with
    | none => simp [classifyColumn, hml, hpl]
    | some pty =>
      refine ⟨?_, by simp⟩
      simp only [classifyColumn, hml, hpl]
      split
      · simp
      · split <;> simp

/-- C3 amended witness: a concrete key present on both sides is classified
(here the claim is applied at a key of the union with a MySQL entry). -/
theorem c3_type_classification_amended_witness :
    ("users.active" ∈ allColKeys [("users.active", "tinyint(1)")] [("users.active", "bool")]) ∧
    ((classifyColumn [("users.active", "tinyint(1)")] [("users.active", "bool")]
        "users.active").isSome = true) :=
  ⟨by decide,
   ((c3_type_classification_amended [("users.active", "tinyint(1)")] [("users.active", "bool")]
      "users.active" (by decide)).1).mpr (by decide)⟩

/-! ## Target namespace resolver (validation.py, `discover_pg_schema`, lines 71-118)

The whole body sits in one `try` whose `except psycopg2.Error` returns
`'public'`; the query returns `(table_schema, table_count)` rows ordered by
`table_count DESC` (tie order left to the engine), which populate the
`schemas` dict in row order.  `max(schemas, key=schemas.get)` keeps the
first key whose count is maximal, in that insertion order. -/

/-- `max(schemas, key=schemas.get)` over a nonempty dict in insertion
order: CPython's `max` replaces the running best only on a strictly greater
key, so the first maximal entry wins. -/
def pyDictMax (r : String × Nat) (rs : List (String × Nat)) : String :=
  (rs.foldl (fun best cur => if cur.2 > best.2 then cur else best) r).1

/-- `discover_pg_schema`, over the outcome of the grouped catalog query
(`Except.error` is a raised `psycopg2.Error`, caught by the enclosing
handler). -/
def discover_pg_schema (queryRes : Except String (List (String × Nat)))
    (mysqlDatabase : String) : String :=
  match queryRes with
  | .error _ => "public"
  | .ok rows =>
    match rows with
    | [] => "public"
    | r :: rs =>
      let mysqlDbLower := pyLower mysqlDatabase
      if ((r :: rs).lookup mysqlDbLower).isSome then mysqlDbLower
      else if ((r :: rs).lookup "public").isSome then "public"
      else pyDictMax r rs

/-! ### Claims C4 and C7 -/

/-- C4 counterexample: the claim says ties on the highest table count are
broken by the lexicographically smallest namespace name.  The catalog query
orders only by table count, so `[("zeta", 5), ("alpha", 5)]` is a
legitimate snapshot ordering; the code returns the first-listed tied
namespace `"zeta"`, not the lexicographically smaller `"alpha"`. -/
theorem c4_namespace_resolver_counterexample :
    discover_pg_schema (Except.ok [("zeta", 5), ("alpha", 5)]) "somedb" = "zeta" ∧
    strLt "alpha" "zeta" = true := by
  decide

/-- C4 amended: the resolver returns `"public"` when no non-system
namespace has a table; else the lower-cased source database name when it is
among the namespaces; else `"public"` when present; else the namespace
listed first in the catalog query's result — which, since the query orders
by table count descending, is one with the highest table count, ties being
broken by whichever tied namespace the engine returned first rather than
lexicographically. -/
theorem c4_namespace_resolver_amended (db : String) (r : String × Nat)
    (rs : List (String × Nat)) :
    (discover_pg_schema (Except.ok []) db = "public") ∧
    (((r :: rs).lookup (pyLower db)).isSome →
      discover_pg_schema (Except.ok (r :: rs)) db = pyLower db) ∧
    ((r :: rs).lookup (pyLower db) = none → ((r :: rs).lookup "public").isSome →
      discover_pg_schema (Except.ok (r :: rs)) db = "public") ∧
    ((r :: rs).lookup (pyLower db) = none → (r :: rs).lookup "public" = none →
      (∀ x ∈ rs, x.2 ≤ r.2) →
      discover_pg_schema (Except.ok (r :: rs)) db = r.1) := by
  refine ⟨rfl, ?_, ?_, ?_⟩
  · intro h
    simp [discover_pg_schema, h]
  · intro h1 h2
    simp [discover_pg_schema, h1, h2]
  · intro h1 h2 hle
    simp only [discover_pg_schema, h1, h2, Option.isSome_none, Bool.false_eq_true,
      if_false, Option.isSome]
    have hmax : ∀ (l : List (String × Nat)) (b : String × Nat), (∀ x ∈ l, x.2 ≤ b.2) →
        l.foldl (fun best cur => if cur.2 > best.2 then cur else best) b = b := by
      intro l
      induction l with
      | nil => intro b _; rfl
      | cons x xs ih =>
        intro b hb
        have hx : x.2 ≤ b.2 := hb x (by simp)
        have hstep : (if x.2 > b.2 then x else b) = b := by
          have : ¬x.2 > b.2 := by omega
          simp [this]
        rw [List.foldl_cons, hstep]
        exact ih b (fun y hy => hb y (by simp [hy]))
    rw [pyDictMax, hmax rs r hle]

/-- C4 amended witness: a concrete snapshot with neither the database-name
namespace nor `"public"` returns the first-listed (highest-count)
namespace. -/
theorem c4_namespace_resolver_amended_witness :
    discover_pg_schema (Except.ok [("warehouse", 3), ("extra", 2)]) "somedb" = "warehouse" :=
  (c4_namespace_resolver_amended "somedb" ("warehouse", 3) [("extra", 2)]).2.2.2
    (by decide) (by decide) (by decide)

/-- C7: the resolver never propagates an error: any connectivity or query
failure (a caught `psycopg2.Error`, modelled as the `Except.error` outcome
of the catalog query) makes it return the conventional default namespace
`"public"`; an empty catalog likewise returns `"public"` without error. -/
theorem c7_namespace_resolver_fallback (e : String) (db : String) :
    discover_pg_schema (Except.error e) db = "public" ∧
    discover_pg_schema (Except.ok []) db = "public" :=
  ⟨rfl, rfl⟩

/-! ## Row-count introspectors (validation.py, `get_mysql_tables` lines 15-68
and `get_pg_tables` lines 121-175)

Both loop over the enumerated tables, run one `COUNT(*)` per table inside
its own `try`, and record `-1` when that single query raises; the MySQL
side keys the dict by `table.lower()`, the PG side by the table name as
enumerated.  The per-table query outcome is an `Except` parameter. -/

/-- The count stored for one table: the query result, or `-1` ("Mark as
error") when that table's `COUNT(*)` raised. -/
def countVal : Except String Nat → Int
  | .ok n => (n : Int)
  | .error _ => -1

/-- The counting loop `for table in tables: counts[key(table)] = ...`. -/
def collectCounts (keyOf : String → String) (countOf : String → Except String Nat)
    (tables : List String) : List (String × Int) :=
  tables.foldl (fun acc t => dictInsert acc (keyOf t) (countVal (countOf t))) []

/-- `get_mysql_tables`: keys lower-cased "to match PG". -/
def get_mysql_tables (countOf : String → Except String Nat) (tables : List String) :
    List (String × Int) :=
  collectCounts pyLower countOf tables

/-- `get_pg_tables`: keys as enumerated. -/
def get_pg_tables (countOf : String → Except String Nat) (tables : List String) :
    List (String × Int) :=
  collectCounts id countOf tables

/-! ### Dict lemmas -/

theorem lookup_cons_eq {β : Type} (k : String) (v : β) (tl : List (String × β))
    (k2 : String) :
    ((k, v) :: tl).lookup k2 = if k2 = k then some v else tl.lookup k2 := by
  by_cases h : k2 = k
  · simp [List.lookup, h]
  · have hbeq : (k2 == k) = false := by simp [h]
    simp [List.lookup, hbeq, h]

theorem lookup_map_overwrite {β : Type} (d : List (String × β)) (k : String) (v : β)
    (k2 : String) :
    (d.map (fun kv => if kv.1 = k then (k, v) else kv)).lookup k2 =
      if k2 = k then (if (d.lookup k).isSome then some v else none) else d.lookup k2 := by
  induction d with
  | nil => simp [List.lookup]
  | cons a tl ih =>
    rcases a with ⟨a1, b1⟩
    by_cases hak : a1 = k <;> by_cases hk2 : k2 = k <;> by_cases hk2a : k2 = a1 <;>
      simp_all [List.map_cons, lookup_cons_eq] <;> rw [lookup_cons_eq, if_neg hk2a]

theorem lookup_append_single {β : Type} (d : List (String × β)) (k : String) (v : β)
    (k2 : String) (h : d.lookup k = none) :
    (d ++ [(k, v)]).lookup k2 = if k2 = k then some v else d.lookup k2 := by
  induction d with
  | nil => rw [List.nil_append, lookup_cons_eq]
  | cons a tl ih =>
    rcases a with ⟨a1, b1⟩
    rw [lookup_cons_eq] at h
    by_cases hka : k = a1
    · simp [hka] at h
    · rw [if_neg hka] at h
      by_cases hk2a : k2 = a1 <;> by_cases hk2k : k2 = k <;>
        simp_all [List.cons_append, lookup_cons_eq]

theorem lookup_dictInsert {β : Type} (d : List (String × β)) (k : String) (v : β)
    (k2 : String) :
    (dictInsert d k v).lookup k2 = if k2 = k then some v else d.lookup k2 := by
  rw [dictInsert]
  split
  · rw [lookup_map_overwrite]
    split
    · simp_all
    · rfl
  · rename_i h
    have hnone : d.lookup k = none := by
      cases hx : d.lookup k with
      | none => rfl
      | some b => rw [hx] at h; simp at h
    exact lookup_append_single d k v k2 hnone

theorem collectCounts_append_single (keyOf : String → String)
    (countOf : String → Except String Nat) (l : List String) (a : String) :
    collectCounts keyOf countOf (l ++ [a]) =
      dictInsert (collectCounts keyOf countOf l) (keyOf a) (countVal (countOf a)) := by
  simp [collectCounts, List.foldl_append]

/-- The dict built by the counting loop, characterised by lookup: the value
recorded for a key is the count of the last enumerated table mapping to it. -/
theorem collectCounts_lookup (keyOf : String → String)
    (countOf : String → Except String Nat) (tables : List String) (k : String) :
    (collectCounts keyOf countOf tables).lookup k =
      (tables.reverse.find? (fun t => keyOf t == k)).map (fun t => countVal (countOf t)) := by
  induction tables using List.reverseRecOn with
  | nil => rfl
  | append_singleton l a ih =>
    rw [collectCounts_append_single, lookup_dictInsert, List.reverse_append]
    simp only [List.reverse_cons, List.reverse_nil, List.nil_append, List.singleton_append,
      List.find?]
    by_cases h : keyOf a = k
    · simp [h]
    · have hbeq : (keyOf a == k) = false := by simp [h]
      have hne : k ≠ keyOf a := fun hc => h hc.symm
      simp [hbeq, hne, ih]

theorem dictInsert_keys_nodup {β : Type} (d : List (String × β)) (k : String) (v : β)
    (h : (d.map Prod.fst).Nodup) : ((dictInsert d k v).map Prod.fst).Nodup := by
  rw [dictInsert]
  split
  · have hkeys : (d.map (fun kv => if kv.1 = k then (k, v) else kv)).map Prod.fst =
        d.map Prod.fst := by
      rw [List.map_map]
      refine List.map_congr_left ?_
      intro kv _
      by_cases hkv : kv.1 = k
      · simp [Function.comp, hkv]
      · simp [Function.comp, hkv]
    rw [hkeys]
    exact h
  · rename_i hsplit
    have hnone : d.lookup k = none := by
      cases hx : d.lookup k with
      | none => rfl
      | some b => rw [hx] at hsplit; simp at hsplit
    have hk : k ∉ d.map Prod.fst := by
      intro hmem
      have := (lookup_isSome_iff d k).mpr hmem
      simp [hnone] at this
    rw [List.map_append, List.nodup_append]
    refine ⟨h, by simp, ?_⟩
    intro a ha hb
    simp only [List.map_cons, List.map_nil, List.mem_singleton] at hb
    exact hk (hb ▸ ha)

theorem collectCounts_keys_nodup (keyOf : String → String)
    (countOf : String → Except String Nat) (tables : List String) :
    ((collectCounts keyOf countOf tables).map Prod.fst).Nodup := by
  suffices h : ∀ acc : List (String × Int), (acc.map Prod.fst).Nodup →
      ((tables.foldl (fun acc t => dictInsert acc (keyOf t) (countVal (countOf t))) acc).map
        Prod.fst).Nodup by
    exact h [] (by simp)
  induction tables with
  | nil => intro acc hacc; simpa
  | cons t ts ih =>
    intro acc hacc
    rw [List.foldl_cons]
    exact ih _ (dictInsert_keys_nodup _ _ _ hacc)

theorem collectCounts_keys_mem (keyOf : String → String)
    (countOf : String → Except String Nat) (tables : List String) (k : String) :
    k ∈ (collectCounts keyOf countOf tables).map Prod.fst ↔ ∃ t ∈ tables, keyOf t = k := by
  rw [← lookup_isSome_iff, collectCounts_lookup]
  simp [List.find?_isSome, beq_iff_eq]

theorem find?_keyOf_unique (keyOf : String → String) (l : List String) (u : String)
    (hu : u ∈ l) (hnd : (l.map keyOf).Nodup) :
    l.find? (fun x => keyOf x == keyOf u) = some u := by
  induction l with
  | nil => cases hu
  | cons a t ih =>
    rw [List.map_cons, List.nodup_cons] at hnd
    rcases List.mem_cons.mp hu with h | h
    · subst h
      simp [List.find?]
    · have hna : keyOf a ≠ keyOf u := by
        intro heq
        exact hnd.1 (heq ▸ List.mem_map_of_mem keyOf h)
      have hbeq : (keyOf a == keyOf u) = false := by simp [hna]
      simp only [List.find?, hbeq]
      exact ih h hnd.2

theorem two_le_length_of_two_mem {α : Type} {l : List α} {a b : α}
    (ha : a ∈ l) (hb : b ∈ l) (hab : a ≠ b) : 2 ≤ l.length := by
  cases l with
  | nil => cases ha
  | cons x xs =>
    cases xs with
    | nil =>
      simp only [List.mem_singleton] at ha hb
      exact absurd (ha.trans hb.symm) hab
    | cons y ys => simp only [List.length_cons]; omega

/-! ### Claims C8 and C10 -/

/-- C8: a failing per-table `COUNT(*)` is caught individually: the failing
table's entry is recorded as the `-1` sentinel, and every other table whose
query succeeds still receives its count — in both the source-side
(`get_mysql_tables`, lower-cased keys) and target-side (`get_pg_tables`)
introspectors.  The inventory is always returned (the model is a total
function); the hypothesis that lower-cased names are distinct rules out the
independent key-collision behaviour treated in the C10 claim. -/
theorem c8_per_table_failure_isolated (countOf : String → Except String Nat)
    (tables : List String) (t err : String) (ht : t ∈ tables)
    (hfail : countOf t = Except.error err)
    (hnd : (tables.map pyLower).Nodup) :
    (get_mysql_tables countOf tables).lookup (pyLower t) = some (-1) ∧
    (∀ u n, u ∈ tables → countOf u = Except.ok n →
      (get_mysql_tables countOf tables).lookup (pyLower u) = some (n : Int)) ∧
    (get_pg_tables countOf tables).lookup t = some (-1) ∧
    (∀ u n, u ∈ tables → countOf u = Except.ok n →
      (get_pg_tables countOf tables).lookup u = some (n : Int)) := by
  have hndrev : (tables.reverse.map pyLower).Nodup := by
    rw [List.map_reverse]
    exact List.nodup_reverse.mpr hnd
  have hndid : (tables.reverse.map id).Nodup := by
    rw [List.map_id]
    exact List.nodup_reverse.mpr (List.Nodup.of_map pyLower hnd)
  have hmy : ∀ u, u ∈ tables →
      (get_mysql_tables countOf tables).lookup (pyLower u) = some (countVal (countOf u)) := by
    intro u hu
    rw [get_mysql_tables, collectCounts_lookup,
      find?_keyOf_unique pyLower tables.reverse u (List.mem_reverse.mpr hu) hndrev]
    rfl
  have hpg : ∀ u, u ∈ tables →
      (get_pg_tables countOf tables).lookup u = some (countVal (countOf u)) := by
    intro u hu
    rw [get_pg_tables, collectCounts_lookup]
    have hfind := find?_keyOf_unique id tables.reverse u (List.mem_reverse.mpr hu) hndid
    simp only [id_eq] at hfind ⊢
    rw [hfind]
    rfl
  refine ⟨?_, ?_, ?_, ?_⟩
  · rw [hmy t ht, hfail]
    rfl
  · intro u n hu hok
    rw [hmy u hu, hok]
    rfl
  · rw [hpg t ht, hfail]
    rfl
  · intro u n hu hok
    rw [hpg u hu, hok]
    rfl

/-- Per-table query outcomes for the C8 witness: table `b`'s count query
raises, the others succeed. -/
def c8CountFn : String → Except String Nat :=
  fun t => if t = "b" then Except.error "permission denied" else Except.ok 5

/-- C8 witness: with tables `a`, `b`, `c` and `b`'s count failing, `b` is
recorded as `-1` and `a` still gets its count. -/
theorem c8_per_table_failure_isolated_witness :
    ("b" ∈ ["a", "b", "c"]) ∧
    (get_mysql_tables c8CountFn ["a", "b", "c"]).lookup "b" = some (-1) ∧
    (get_mysql_tables c8CountFn ["a", "b", "c"]).lookup "a" = some 5 ∧
    (get_pg_tables c8CountFn ["a", "b", "c"]).lookup "b" = some (-1) := by
  have h := c8_per_table_failure_isolated c8CountFn ["a", "b", "c"] "b" "permission denied"
    (by decide) (by rfl) (by decide)
  exact ⟨by decide, h.1, h.2.1 "a" 5 (by decide) (by rfl), h.2.2.1⟩

/-- C10: when two distinct enumerated source tables share a lower-cased
name, the inventory built by `get_mysql_tables` holds a single entry under
that shared key (at least two tables map to it, but the dict keys are
unique), and that entry's value is the count of whichever table was
enumerated last with that key — the earlier tables' counts are overwritten. -/
theorem c10_case_collision_last_wins (countOf : String → Except String Nat)
    (tables : List String) (t1 t2 : String) (h1 : t1 ∈ tables) (h2 : t2 ∈ tables)
    (hne : t1 ≠ t2) (hcase : pyLower t1 = pyLower t2) :
    2 ≤ tables.countP (fun u => pyLower u == pyLower t1) ∧
    ((get_mysql_tables countOf tables).map Prod.fst).count (pyLower t1) = 1 ∧
    (get_mysql_tables countOf tables).lookup (pyLower t1) =
      (tables.reverse.find? (fun u => pyLower u == pyLower t1)).map
        (fun u => countVal (countOf u)) := by
  refine ⟨?_, ?_, ?_⟩
  · rw [List.countP_eq_length_filter]
    refine two_le_length_of_two_mem (a := t1) (b := t2) ?_ ?_ hne
    · exact List.mem_filter.mpr ⟨h1, by simp⟩
    · exact List.mem_filter.mpr ⟨h2, by simp [hcase]⟩
  · refine List.count_eq_one_of_mem (collectCounts_keys_nodup pyLower countOf tables) ?_
    exact (collectCounts_keys_mem pyLower countOf tables (pyLower t1)).mpr ⟨t1, h1, rfl⟩
  · exact collectCounts_lookup pyLower countOf tables (pyLower t1)

/-- Per-table counts for the C10 witness. -/
def c10CountFn : String → Except String Nat :=
  fun t => if t = "Foo" then Except.ok 7 else Except.ok 9

/-- C10 witness: tables `Foo` (7 rows) and `FOO` (9 rows) collapse to a
single inventory entry `foo` holding 9, the count of the later table. -/
theorem c10_case_collision_last_wins_witness :
    2 ≤ ["Foo", "FOO"].countP (fun u => pyLower u == pyLower "Foo") ∧
    ((get_mysql_tables c10CountFn ["Foo", "FOO"]).map Prod.fst).count (pyLower "Foo") = 1 ∧
    (get_mysql_tables c10CountFn ["Foo", "FOO"]).lookup (pyLower "Foo") = some 9 := by
  have h := c10_case_collision_last_wins c10CountFn ["Foo", "FOO"] "Foo" "FOO"
    (by decide) (by decide) (by decide) (by decide)
  refine ⟨h.1, h.2.1, ?_⟩
  rw [h.2.2]
  decide

/-! ## Connection URI generation (pgloader.py, `generate_pgloader_config`,
lines 24-88)

The credentials are percent-encoded with `urllib.parse.quote(..., safe="")`
and spliced into `mysql://user:pw@host:port/db` and
`postgresql://user:pw@host:port/db`.  `quote` operates on the UTF-8 bytes
of its input, so strings are modelled as byte lists. -/

/-- A byte. -/
abbrev Byte := Fin 256

/-- The characters `quote` never encodes: ASCII letters, digits, and
`_.-~` (Python's `_ALWAYS_SAFE`); the `safe=""` argument adds nothing. -/
def isAlwaysSafe (b : Byte) : Bool :=
  (48 ≤ b.val && b.val ≤ 57) || (65 ≤ b.val && b.val ≤ 90) ||
  (97 ≤ b.val && b.val ≤ 122) || b.val == 95 || b.val == 46 || b.val == 45 || b.val == 126

/-- Upper-case hex digit of `n % 16`, as a plain number. -/
def hexDigitUpperVal (n : Nat) : Nat :=
  if n % 16 < 10 then 48 + n % 16 else 55 + n % 16

theorem hexDigitUpperVal_lt (n : Nat) : hexDigitUpperVal n < 256 := by
  have hm : n % 16 < 16 := Nat.mod_lt _ (by omega)
  rw [hexDigitUpperVal]
  split <;> omega

/-- Upper-case hex digit of `n % 16`, as a byte. -/
def hexDigitUpper (n : Nat) : Byte :=
  ⟨hexDigitUpperVal n, hexDigitUpperVal_lt n⟩

theorem hexDigitUpper_val (n : Nat) : (hexDigitUpper n).val = hexDigitUpperVal n := rfl

def percentByte : Byte := ⟨37, by omega⟩

def colonByte : Byte := ⟨58, by omega⟩

def atByte : Byte := ⟨64, by omega⟩

def slashByte : Byte := ⟨47, by omega⟩

/-- One byte's encoding: itself when always-safe, else `%XX`. -/
def encodeByte (b : Byte) : List Byte :=
  if isAlwaysSafe b then [b]
  else [percentByte, hexDigitUpper (b.val / 16), hexDigitUpper (b.val % 16)]

/-- `urllib.parse.quote(s, safe="")` over the bytes of `s`. -/
def quote (s : List Byte) : List Byte :=
  s.flatMap encodeByte

/-- Value of one hex digit byte (case-insensitive), if it is one. -/
def hexVal (b : Byte) : Option Nat :=
  if 48 ≤ b.val ∧ b.val ≤ 57 then some (b.val - 48)
  else if 65 ≤ b.val ∧ b.val ≤ 70 then some (b.val - 55)
  else if 97 ≤ b.val ∧ b.val ≤ 102 then some (b.val - 87)
  else none

/-- `urllib.parse.unquote` at the byte level: `%` followed by two hex
digits decodes to one byte, anything else passes through. -/
def unquote : List Byte → List Byte
  | [] => []
  | [c] => [c]
  | [c, d] => [c, d]
  | c :: h :: l :: rest =>
    if c = percentByte then
      match hexVal h, hexVal l with
      | some vh, some vl => (⟨(16 * vh + vl) % 256, by omega⟩ : Byte) :: unquote rest
      | _, _ => c :: unquote (h :: l :: rest)
    else c :: unquote (h :: l :: rest)

/-- `"mysql://"`. -/
def mysqlScheme : List Byte := [109, 121, 115, 113, 108, 58, 47, 47]

/-- `"postgresql://"`. -/
def pgScheme : List Byte := [112, 111, 115, 116, 103, 114, 101, 115, 113, 108, 58, 47, 47]

/-- `f"mysql://{user}:{password}@{host}:{port}/{database}"` (pgloader.py
line 50), with user, password and database percent-encoded and host/port
spliced in as-is. -/
def source_uri (user password host port database : List Byte) : List Byte :=
  mysqlScheme ++ quote user ++ [colonByte] ++ quote password ++ [atByte] ++
    host ++ [colonByte] ++ port ++ [slashByte] ++ quote database

/-- `f"postgresql://{user}:{password}@{host}:{port}/{database}"` (line 53),
with the resolved target host/port spliced in as-is. -/
def target_uri (user password host port database : List Byte) : List Byte :=
  pgScheme ++ quote user ++ [colonByte] ++ quote password ++ [atByte] ++
    host ++ [colonByte] ++ port ++ [slashByte] ++ quote database

/-- The URI's user segment: the bytes after the scheme, up to the first
`:`. -/
def userSegment (uri : List Byte) (schemeLength : Nat) : List Byte :=
  (uri.drop schemeLength).takeWhile (fun b => b.val != 58)

/-- The URI's password segment: after the `:` ending the user segment, up
to the `@`. -/
def passwordSegment (uri : List Byte) (schemeLength : Nat) : List Byte :=
  (((uri.drop schemeLength).dropWhile (fun b => b.val != 58)).drop 1).takeWhile
    (fun b => b.val != 64)

/-- The URI's database segment: the bytes after the last `/`. -/
def dbSegment (uri : List Byte) : List Byte :=
  (uri.reverse.takeWhile (fun b => b.val != 47)).reverse

/-! ### Encoding lemmas -/

theorem isAlwaysSafe_val_facts (b : Byte) (h : isAlwaysSafe b = true) :
    b.val ≠ 37 ∧ b.val ≠ 58 ∧ b.val ≠ 64 ∧ b.val ≠ 47 := by
  rw [isAlwaysSafe] at h
  simp only [Bool.or_eq_true, Bool.and_eq_true, decide_eq_true_eq, beq_iff_eq] at h
  omega

theorem hexDigitUpper_val_facts (n : Nat) :
    (hexDigitUpper n).val ≠ 37 ∧ (hexDigitUpper n).val ≠ 58 ∧
    (hexDigitUpper n).val ≠ 64 ∧ (hexDigitUpper n).val ≠ 47 := by
  have hm : n % 16 < 16 := Nat.mod_lt _ (by omega)
  rw [hexDigitUpper_val, hexDigitUpperVal]
  split <;> omega

theorem encodeByte_not_delim (b : Byte) : ∀ x ∈ encodeByte b,
    x.val ≠ 58 ∧ x.val ≠ 64 ∧ x.val ≠ 47 := by
  intro x hx
  rw [encodeByte] at hx
  split at hx
  · rename_i hsafe
    rw [List.mem_singleton] at hx
    subst hx
    have hf := isAlwaysSafe_val_facts x hsafe
    exact ⟨hf.2.1, hf.2.2.1, hf.2.2.2⟩
  · simp only [List.mem_cons, List.not_mem_nil, or_false] at hx
    rcases hx with rfl | rfl | rfl
    · exact ⟨by decide, by decide, by decide⟩
    · have hf := hexDigitUpper_val_facts (b.val / 16)
      exact ⟨hf.2.1, hf.2.2.1, hf.2.2.2⟩
    · have hf := hexDigitUpper_val_facts (b.val % 16)
      exact ⟨hf.2.1, hf.2.2.1, hf.2.2.2⟩

theorem safe_byte_ne_percent (b : Byte) (h : isAlwaysSafe b = true) : b ≠ percentByte := by
  intro he
  have hf := (isAlwaysSafe_val_facts b h).1
  rw [he] at hf
  exact hf rfl

theorem hexVal_hexDigitUpper (n : Nat) : hexVal (hexDigitUpper n) = some (n % 16) := by
  have hm : n % 16 < 16 := Nat.mod_lt _ (by omega)
  rw [hexVal, hexDigitUpper_val, hexDigitUpperVal]
  by_cases h : n % 16 < 10
  · rw [if_pos h, if_pos ⟨by omega, by omega⟩, Nat.add_sub_cancel_left]
  · rw [if_neg h, if_neg (by omega), if_pos ⟨by omega, by omega⟩, Nat.add_sub_cancel_left]

theorem hexPair_decode (b : Byte) :
    hexVal (hexDigitUpper (b.val / 16)) = some (b.val / 16) ∧
    hexVal (hexDigitUpper (b.val % 16)) = some (b.val % 16) ∧
    (⟨(16 * (b.val / 16) + b.val % 16) % 256, by omega⟩ : Byte) = b := by
  have hb := b.isLt
  refine ⟨?_, ?_, ?_⟩
  · rw [hexVal_hexDigitUpper]
    congr 1
    omega
  · rw [hexVal_hexDigitUpper]
    congr 1
    omega
  · apply Fin.ext
    show (16 * (b.val / 16) + b.val % 16) % 256 = b.val
    omega

theorem quote_not_delim (s : List Byte) : ∀ x ∈ quote s,
    x.val ≠ 58 ∧ x.val ≠ 64 ∧ x.val ≠ 47 := by
  intro x hx
  rw [quote] at hx
  rcases List.mem_flatMap.mp hx with ⟨a, ha, hxa⟩
  exact encodeByte_not_delim a x hxa

theorem unquote_cons_safe (b : Byte) (hb : b ≠ percentByte) (xs : List Byte) :
    unquote (b :: xs) = b :: unquote xs := by
  match xs with
  | [] => simp [unquote]
  | [c] => simp [unquote]
  | c :: d :: rest => simp [unquote, hb]

theorem quote_unquote (s : List Byte) : unquote (quote s) = s := by
  induction s with
  | nil => rfl
  | cons b s ih =>
    rw [quote, List.flatMap_cons, ← quote]
    by_cases hb : isAlwaysSafe b = true
    · rw [encodeByte, if_pos hb, List.singleton_append,
        unquote_cons_safe b (safe_byte_ne_percent b hb), ih]
    · rw [encodeByte, if_neg hb]
      simp only [List.cons_append, List.nil_append]
      have hd := hexPair_decode b
      simp only [unquote, hd.1, hd.2.1, hd.2.2, ih]
      simp

theorem takeWhile_append_stop (p : Byte → Bool) (xs : List Byte) (y : Byte)
    (ys : List Byte) (hall : ∀ x ∈ xs, p x = true) (hy : p y = false) :
    (xs ++ y :: ys).takeWhile p = xs := by
  induction xs with
  | nil => simp [List.takeWhile_cons, hy]
  | cons a t ih =>
    have ha : p a = true := hall a (List.mem_cons_self a t)
    simp only [List.cons_append, List.takeWhile_cons, ha, if_true]
    rw [ih (fun x hx => hall x (List.mem_cons_of_mem a hx))]

theorem dropWhile_append_stop (p : Byte → Bool) (xs : List Byte) (y : Byte)
    (ys : List Byte) (hall : ∀ x ∈ xs, p x = true) (hy : p y = false) :
    (xs ++ y :: ys).dropWhile p = y :: ys := by
  induction xs with
  | nil => simp [List.dropWhile_cons, hy]
  | cons a t ih =>
    have ha : p a = true := hall a (List.mem_cons_self a t)
    simp only [List.cons_append, List.dropWhile_cons, ha, if_true]
    rw [ih (fun x hx => hall x (List.mem_cons_of_mem a hx))]

theorem drop_length_append {α : Type} (l1 l2 : List α) :
    (l1 ++ l2).drop l1.length = l2 := by
  induction l1 with
  | nil => rfl
  | cons a t ih => simpa using ih

theorem afterLastSlash (A Q : List Byte) (hQ : ∀ x ∈ Q, x.val ≠ 47) :
    dbSegment (A ++ slashByte :: Q) = Q := by
  rw [dbSegment, List.reverse_append, List.reverse_cons, List.append_assoc,
    List.singleton_append]
  rw [takeWhile_append_stop _ Q.reverse slashByte A.reverse
    (fun x hx => by simpa using hQ x (List.mem_reverse.mp hx))
    (by decide), List.reverse_reverse]

theorem uri_segments (scheme user password host port database : List Byte) :
    userSegment (scheme ++ quote user ++ [colonByte] ++ quote password ++ [atByte] ++
        host ++ [colonByte] ++ port ++ [slashByte] ++ quote database) scheme.length
      = quote user ∧
    passwordSegment (scheme ++ quote user ++ [colonByte] ++ quote password ++ [atByte] ++
        host ++ [colonByte] ++ port ++ [slashByte] ++ quote database) scheme.length
      = quote password ∧
    dbSegment (scheme ++ quote user ++ [colonByte] ++ quote password ++ [atByte] ++
        host ++ [colonByte] ++ port ++ [slashByte] ++ quote database)
      = quote database := by
  have huser : ∀ x ∈ quote user, (x.val != 58) = true :=
    fun x hx => by simpa using (quote_not_delim user x hx).1
  have hpw : ∀ x ∈ quote password, (x.val != 64) = true :=
    fun x hx => by simpa using (quote_not_delim password x hx).2.1
  have hdb : ∀ x ∈ quote database, x.val ≠ 47 :=
    fun x hx => (quote_not_delim database x hx).2.2
  refine ⟨?_, ?_, ?_⟩
  · rw [userSegment]
    simp only [List.append_assoc, List.singleton_append, List.cons_append]
    rw [drop_length_append]
    exact takeWhile_append_stop _ (quote user) colonByte _ huser (by decide)
  · rw [passwordSegment]
    simp only [List.append_assoc, List.singleton_append, List.cons_append]
    rw [drop_length_append,
      dropWhile_append_stop _ (quote user) colonByte _ huser (by decide)]
    rw [List.drop_one, List.tail_cons]
    exact takeWhile_append_stop _ (quote password) atByte _ hpw (by decide)
  · have hsplit : scheme ++ quote user ++ [colonByte] ++ quote password ++ [atByte] ++
        host ++ [colonByte] ++ port ++ [slashByte] ++ quote database =
        (scheme ++ quote user ++ [colonByte] ++ quote password ++ [atByte] ++
          host ++ [colonByte] ++ port) ++ slashByte :: quote database := by
      simp [List.append_assoc]
    rw [hsplit, afterLastSlash _ _ hdb]

/-! ### Claim C6 -/

/-- C6: percent-decoding the user, password and database segments of the
generated source and target URIs reproduces the original byte strings
exactly, for arbitrary credentials (hence including `/`, `:`, `@` and
space); and the encoding treats no characters as safe: `/`, `:`, `@` and
space are themselves percent-escaped (`%2F`, `%3A`, `%40`, `%20`). -/
theorem c6_percent_encoding_roundtrip (user password host port database : List Byte) :
    (userSegment (source_uri user password host port database) 8 = quote user ∧
     unquote (userSegment (source_uri user password host port database) 8) = user) ∧
    (passwordSegment (source_uri user password host port database) 8 = quote password ∧
     unquote (passwordSegment (source_uri user password host port database) 8) = password) ∧
    (dbSegment (source_uri user password host port database) = quote database ∧
     unquote (dbSegment (source_uri user password host port database)) = database) ∧
    (userSegment (target_uri user password host port database) 13 = quote user ∧
     unquote (userSegment (target_uri user password host port database) 13) = user) ∧
    (passwordSegment (target_uri user password host port database) 13 = quote password ∧
     unquote (passwordSegment (target_uri user password host port database) 13) = password) ∧
    (dbSegment (target_uri user password host port database) = quote database ∧
     unquote (dbSegment (target_uri user password host port database)) = database) ∧
    (quote [slashByte] = [percentByte, 50, 70] ∧
     quote [colonByte] = [percentByte, 51, 65] ∧
     quote [atByte] = [percentByte, 52, 48] ∧
     quote [32] = [percentByte, 50, 48]) := by
  have hs := uri_segments mysqlScheme user password host port database
  have ht := uri_segments pgScheme user password host port database
  have hlen8 : mysqlScheme.length = 8 := rfl
  have hlen13 : pgScheme.length = 13 := rfl
  rw [hlen8] at hs
  rw [hlen13] at ht
  refine ⟨⟨?_, ?_⟩, ⟨?_, ?_⟩, ⟨?_, ?_⟩, ⟨?_, ?_⟩, ⟨?_, ?_⟩, ⟨?_, ?_⟩, by decide⟩
  · exact hs.1
  · rw [source_uri, hs.1]; exact quote_unquote user
  · exact hs.2.1
  · rw [source_uri, hs.2.1]; exact quote_unquote password
  · exact hs.2.2
  · rw [source_uri, hs.2.2]; exact quote_unquote database
  · exact ht.1
  · rw [target_uri, ht.1]; exact quote_unquote user
  · exact ht.2.1
  · rw [target_uri, ht.2.1]; exact quote_unquote password
  · exact ht.2.2
  · rw [target_uri, ht.2.2]; exact quote_unquote database

/-! ## Pipeline tail and exit code (cli.py, `main`, lines 305-359) -/

/-- Observable outcome of the end of `main`: what the HTML-report step
printed, and the process exit code. -/
structure MainOutcome where
  htmlMessages : List String
  exitCode : Nat
deriving Repr

/-- The tail of `main`: the validation step (a raised exception is caught,
yielding `all_passed = False` and no report object, lines 308-315), the
schema-diff step (exception caught, `diff_report = None`, lines 320-324),
the HTML-report step attempted only when both report objects exist, with
its failure caught and logged (lines 326-332), and the final
`return 0 if all_passed else 1` (line 359). -/
def main_tail (valRes : Except String VerificationReport) (diffRes : Except String Unit)
    (htmlRes : Except String String) : MainOutcome :=
  let allPassed := match valRes with
    | .ok r => r.all_passed
    | .error _ => false
  let htmlMessages := match valRes, diffRes with
    | .ok _, .ok _ =>
      match htmlRes with
      | .ok path => ["✓ Detailed report generated: " ++ path]
      | .error e => ["✗ HTML report error: " ++ e]
    | _, _ => []
  { htmlMessages := htmlMessages
    exitCode := if allPassed then 0 else 1 }

/-! ### Claim C9 -/

/-- C9: a failure while generating or writing the HTML report is non-fatal:
the exit code is the same whatever the HTML step's outcome, and equals 0
when the verification verdict passed and 1 otherwise (including when
validation itself raised). -/
theorem c9_html_failure_nonfatal (valRes : Except String VerificationReport)
    (diffRes : Except String Unit) (htmlRes htmlRes2 : Except String String) :
    (main_tail valRes diffRes htmlRes).exitCode = (main_tail valRes diffRes htmlRes2).exitCode ∧
    (main_tail valRes diffRes htmlRes).exitCode =
      (match valRes with
       | .ok r => if r.all_passed then 0 else 1
       | .error _ => 1) := by
  cases valRes <;> cases diffRes <;> cases htmlRes <;> cases htmlRes2 <;> simp [main_tail]

end Mysql2pg
